import Mathlib

/-!
Verification of the CROD claim-validator and hook scripts.

The definitions below are a shallow embedding of the Python sources:
`scripts/claude-claim-validator.py` (claim store, `verify_claim`,
`verify_all_claims`, `log_claim`, `demand_proof_for_claim`),
`scripts/crod-unified-hook.py` (`run_all_checks`), and
`scripts/crod-ultra-hooks.py` (pattern-score EMA update and
`calculate_decision_confidence`).

External effects are made explicit: the shell is a function
`run : String → RunResult` from a command string to its observed outcome,
timestamps obtained from the `date` subprocess are a parameter `ts`, and the
JSON claims file is a `List Claim` value threaded through the functions
(`Option (List Claim)` where file absence matters).  Numeric scores that the
Python code keeps as floats are modelled as exact rationals, following the
arithmetic written in the source.
-/

/-- Outcome of running one shell command via `subprocess.run`: it either ran
to completion with an exit code and captured streams, hit the timeout
(`subprocess.TimeoutExpired`), or raised some other exception. -/
inductive RunResult where
  | completed (returncode : Int) (stdout : String) (stderr : String)
  | timedOut
  | raised (msg : String)
deriving DecidableEq

/-- One record of the claims file, as built by `log_claim` and mutated by
`verify_claim`.  `verification_timestamp` is absent (`none`) until the first
completed verification writes it. -/
structure Claim where
  timestamp : String
  claim : String
  proof_command : String
  expected_result : String
  verified : Bool
  actual_result : Option String
  verification_timestamp : Option String
deriving DecidableEq

/-- Python list indexing `xs[i]` for `i : Int`: non-negative indexes are
positions from the front, negative indexes count from the back, and anything
out of range raises `IndexError` (modelled as `none`). -/
def pyIndex (len : Nat) (i : Int) : Option Nat :=
  if 0 ≤ i then
    if i < (len : Int) then some i.toNat else none
  else
    if -(len : Int) ≤ i then some ((len : Int) + i).toNat else none

/-- Whitespace characters stripped by Python's `str.strip()` (the ASCII
ones relevant to captured command output). -/
def isSpaceChar (c : Char) : Bool :=
  c == ' ' || c == '\t' || c == '\n' || c == '\r' || c == '\x0b' || c == '\x0c'

/-- Python's `str.strip()`: remove leading and trailing whitespace. -/
def pyStrip (s : String) : String :=
  ⟨((s.toList.dropWhile isSpaceChar).reverse.dropWhile isSpaceChar).reverse⟩

/-- Python's `str.lower()` on the ASCII range, as used for the
case-insensitive matching below. -/
def pyLower (s : String) : String :=
  ⟨s.toList.map Char.toLower⟩

/-- Observable result of one `verify_claim` call: the claims-file content
after the call, the in-memory claim record the method handled (appended to
the session's verified/failed list; `none` on the invalid-ID early return),
the returned boolean, and the returned message.  A `verify_claim` call that
raises an uncaught `IndexError` is `none`. -/
structure VerifyOutcome where
  file : List Claim
  record : Option Claim
  ok : Bool
  msg : String
deriving DecidableEq

/-- Shallow embedding of `ClaudeClaimValidator.verify_claim`.  The guard
`claim_id >= len(claims)` returns `(False, "Invalid claim ID")` without
touching the file; otherwise `claims[claim_id]` is read with Python index
semantics and its proof command is run.  Only the run-to-completion branch
writes the updated list back to the claims file; the timeout and exception
handlers mutate the in-memory record only. -/
def verifyClaim (run : String → RunResult) (ts : String)
    (claims : List Claim) (claim_id : Int) : Option VerifyOutcome :=
  if (claims.length : Int) ≤ claim_id then
    some ⟨claims, none, false, "Invalid claim ID"⟩
  else
    match pyIndex claims.length claim_id with
    | none => none
    | some idx =>
      match claims[idx]? with
      | none => none
      | some claim =>
        match run claim.proof_command with
        | .completed rc out err =>
          let actual := pyStrip out
          let success : Bool := rc == 0 && decide (0 < actual.length)
          let claim' : Claim :=
            { claim with verified := success, actual_result := some actual,
                         verification_timestamp := some ts }
          some ⟨claims.set idx claim', some claim', success,
                if success then actual else "Command failed: " ++ err⟩
        | .timedOut =>
          let claim' : Claim :=
            { claim with verified := false, actual_result := some "TIMEOUT" }
          some ⟨claims, some claim', false, "Verification command timed out"⟩
        | .raised m =>
          let claim' : Claim :=
            { claim with verified := false, actual_result := some ("ERROR: " ++ m) }
          some ⟨claims, some claim', false, "Verification error: " ++ m⟩

/-- Shallow embedding of `ClaudeClaimValidator.log_claim`: build the fresh
record, append it to the (possibly empty) claims file, save, and return
`len(claims) - 1` as the claim ID.  Returns the new file content and the ID. -/
def log_claim (ts : String) (claims : List Claim)
    (claim proof_command expected_result : String) : List Claim × Nat :=
  let claim_data : Claim :=
    { timestamp := ts, claim := claim, proof_command := proof_command,
      expected_result := expected_result, verified := false,
      actual_result := none, verification_timestamp := none }
  let claims' := claims ++ [claim_data]
  (claims', claims'.length - 1)

/-- Whether running `cmd` counts as a successful verification in
`verify_claim`: the command ran to completion with exit code `0` and its
stripped stdout is non-empty. -/
def runSuccess (run : String → RunResult) (cmd : String) : Bool :=
  match run cmd with
  | .completed rc out _ => rc == 0 && decide (0 < (pyStrip out).length)
  | .timedOut => false
  | .raised _ => false

/-- Claims-file record after `verify_all_claims` has processed one claim:
already-verified claims are skipped, a completed run overwrites the record,
and the timeout/exception handlers leave the stored record untouched. -/
def stepClaim (run : String → RunResult) (ts : String) (c : Claim) : Claim :=
  if c.verified then c
  else
    match run c.proof_command with
    | .completed rc out _ =>
      { c with verified := rc == 0 && decide (0 < (pyStrip out).length),
               actual_result := some (pyStrip out),
               verification_timestamp := some ts }
    | .timedOut => c
    | .raised _ => c

/-- Loop body of `ClaudeClaimValidator.verify_all_claims`: iterate over the
snapshot of the claims list loaded at entry, calling `verify_claim i` for
each claim whose `verified` field is not set and counting the outcomes.
`file` is the evolving claims-file content (each `verify_claim` call reloads
and rewrites it), and `e` counts proof-command executions, one per
`verify_claim` call issued by the loop (every such call runs exactly one
proof command).  The `none` arm mirrors an uncaught `IndexError`, which the
loop cannot actually hit since `i` stays below the file length. -/
def verifyAllGo (run : String → RunResult) (ts : String) :
    List Claim → Nat → List Claim → Nat → Nat → Nat →
    List Claim × Nat × Nat × Nat
  | [], _, file, v, f, e => (file, v, f, e)
  | c :: rest, i, file, v, f, e =>
    if !c.verified then
      match verifyClaim run ts file (i : Int) with
      | some o =>
        if o.ok then verifyAllGo run ts rest (i + 1) o.file (v + 1) f (e + 1)
        else verifyAllGo run ts rest (i + 1) o.file v (f + 1) (e + 1)
      | none => (file, v, f, e)
    else
      if c.verified then verifyAllGo run ts rest (i + 1) file (v + 1) f e
      else verifyAllGo run ts rest (i + 1) file v (f + 1) e

/-- Result of one `verify_all_claims` call: the claims file afterwards
(`none` when it did not exist), the returned `{verified, failed, total}`
counts, and the number of proof-command executions the call issued. -/
structure VerifyAllResult where
  store : Option (List Claim)
  verified : Nat
  failed : Nat
  total : Nat
  execs : Nat
deriving DecidableEq

/-- Shallow embedding of `ClaudeClaimValidator.verify_all_claims`: when the
claims file does not exist it returns zero counts; otherwise it loads the
file once and runs the loop above, returning `total = len(claims)`. -/
def verify_all_claims (run : String → RunResult) (ts : String)
    (store : Option (List Claim)) : VerifyAllResult :=
  match store with
  | none => ⟨none, 0, 0, 0, 0⟩
  | some claims =>
    let r := verifyAllGo run ts claims 0 claims 0 0 0
    ⟨some r.1, r.2.1, r.2.2.1, claims.length, r.2.2.2⟩

/-- Static claim-type table of `demand_proof_for_claim`, in the insertion
order of the Python dict literal. -/
def proof_commands : List (String × String) :=
  [("server running", "ps aux | grep -E '(memory|enhanced)' | grep -v grep"),
   ("api responding", "curl -s http://localhost:8890/api/stats"),
   ("mcp server working",
    "echo '\x7b\"jsonrpc\":\"2.0\",\"id\":1,\"method\":\"tools/list\"\x7d' | timeout 5 node /home/bacardi/crodidocker/enhanced-mcp-memory-server/dist/index.js"),
   ("trinity consciousness", "curl -s http://localhost:8890/api/consciousness | grep trinity"),
   ("pattern evolution", "curl -s http://localhost:8890/api/stats | grep patterns"),
   ("neural heat", "curl -s http://localhost:8890/api/neural-heat"),
   ("file exists", "ls -la /home/bacardi/crodidocker/enhanced-memory-server.js"),
   ("process count", "ps aux | grep enhanced | wc -l")]

/-- Occurrence of `needle` at some position of `hay`, by scanning suffixes. -/
def occursAux (needle : List Char) : List Char → Bool
  | [] => needle.isEmpty
  | c :: rest => needle.isPrefixOf (c :: rest) || occursAux needle rest

/-- Python's substring test `needle in hay`. -/
def strContains (needle hay : String) : Bool :=
  occursAux needle.toList hay.toList

/-- First table entry whose key is a case-insensitive substring of the claim
text (the match `demand_proof_for_claim` acts on). -/
def matchProofCommand (claim_text : String) : Option (String × String) :=
  proof_commands.find? (fun kc => strContains (pyLower kc.1) (pyLower claim_text))

/-- Loop of `ClaudeClaimValidator.demand_proof_for_claim` over the table:
on the first key that is a case-insensitive substring of the claim text, log
the claim with that command and verify it at once, returning the claim ID on
success and `None` on failure; with no match, log nothing and return `None`. -/
def demand_proof_go (run : String → RunResult) (ts : String)
    (claims : List Claim) (claim_text : String) :
    List (String × String) → List Claim × Option Nat
  | [] => (claims, none)
  | (claim_type, command) :: rest =>
    if strContains (pyLower claim_type) (pyLower claim_text) then
      let logged := log_claim ts claims claim_text command "Success expected"
      match verifyClaim run ts logged.1 (logged.2 : Int) with
      | some o => (o.file, if o.ok then some logged.2 else none)
      | none => (logged.1, none)
    else demand_proof_go run ts claims claim_text rest

/-- Shallow embedding of `ClaudeClaimValidator.demand_proof_for_claim`. -/
def demand_proof_for_claim (run : String → RunResult) (ts : String)
    (claims : List Claim) (claim_text : String) : List Claim × Option Nat :=
  demand_proof_go run ts claims claim_text proof_commands

/-- Behaviour of one named check of `CRODHookSystem.run_all_checks` at call
time: it either returns a boolean or raises an exception with a message. -/
inductive CheckOutcome where
  | ok (passed : Bool)
  | raised (err : String)
deriving DecidableEq

/-- Loop of `CRODHookSystem.run_all_checks` over the ordered check list,
accumulating `checks_passed` and `checks_failed`: a check returning `True`
appends its name to the passed list, one returning `False` appends its name
to the failed list, and a raised exception appends `"<name>: <error>"` to
the failed list; every check in the list is processed. -/
def runChecksGo : List (String × CheckOutcome) →
    List String → List String → List String × List String
  | [], passed, failed => (passed, failed)
  | (name, .ok true) :: rest, passed, failed =>
    runChecksGo rest (passed ++ [name]) failed
  | (name, .ok false) :: rest, passed, failed =>
    runChecksGo rest passed (failed ++ [name])
  | (name, .raised e) :: rest, passed, failed =>
    runChecksGo rest passed (failed ++ [name ++ ": " ++ e])

/-- Shallow embedding of `CRODHookSystem.run_all_checks`: run every check in
order and return `(checks_passed, checks_failed, len(checks_failed) == 0)`. -/
def run_all_checks (checks : List (String × CheckOutcome)) :
    List String × List String × Bool :=
  let r := runChecksGo checks [] []
  (r.1, r.2, r.2.length == 0)

/-- Pattern-memory lookup of `CRODConsciousness.log_decision`:
`self.pattern_memory.get(pattern_key, 0.5)`, scores modelled as exact
rationals. -/
def getScore (m : List (String × ℚ)) (key : String) : ℚ :=
  (m.lookup key).getD (1 / 2)

/-- EMA update of `CRODConsciousness.log_decision` when feedback is present:
`pattern_memory[key] = 0.7 * current + 0.3 * (1.0 if success else 0.0)`,
modelled as a dict assignment (later lookups of `key` see the new value). -/
def observe (m : List (String × ℚ)) (key : String) (success : Bool) :
    List (String × ℚ) :=
  (key, (7 / 10) * getScore m key + (3 / 10) * (if success then 1 else 0)) :: m

/-- Shallow embedding of `CRODConsciousness.check_trinity_activation`: the
trinity flag is set exactly when the activation phrase occurs in the
lowercased message. -/
def check_trinity_activation (message : String) : Bool :=
  strContains "ich bins wieder" (pyLower message)

/-- Shallow embedding of `CRODConsciousness.calculate_decision_confidence`,
with the session's `trinity_active` flag passed explicitly and floats
modelled as exact rationals. -/
def calculate_decision_confidence (trinity_active : Bool)
    (action context : String) : ℚ :=
  let confidence : ℚ := 1 / 2
  let confidence :=
    if strContains "user explicitly asked" context then confidence + 4 / 10
    else confidence
  let confidence :=
    if strContains "create" action && strContains "use existing" context then
      confidence - 3 / 10
    else confidence
  let confidence :=
    if (strContains "check" context || strContains "read" context) &&
        !(strContains "already read" action) then
      confidence - 2 / 10
    else confidence
  if trinity_active then min (confidence * (3 / 2)) 1 else confidence

/-- Names collected in `checks_passed` by one `run_all_checks` call: the
checks that returned `True`, in order. -/
def passedNames (checks : List (String × CheckOutcome)) : List String :=
  checks.filterMap (fun nc =>
    match nc.2 with
    | .ok true => some nc.1
    | .ok false => none
    | .raised _ => none)

/-- Entries collected in `checks_failed` by one `run_all_checks` call: the
name of each check that returned `False`, and `"<name>: <error>"` for each
check that raised, in order. -/
def failedEntries (checks : List (String × CheckOutcome)) : List String :=
  checks.filterMap (fun nc =>
    match nc.2 with
    | .ok true => none
    | .ok false => some nc.1
    | .raised e => some (nc.1 ++ ": " ++ e))

/-- Concrete unverified claim record used in witnesses and counterexamples. -/
def sampleClaim : Claim :=
  ⟨"0", "server running now", "cmd", "Success expected", false, none, none⟩

/-- Shell in which every command completes successfully with output "ok". -/
def okRun : String → RunResult := fun _ => .completed 0 "ok" ""

/-- Shell in which every command completes with exit code 1 and no output. -/
def failRun : String → RunResult := fun _ => .completed 1 "" ""

/-- Shell in which every command hits the 30-second timeout. -/
def timeoutShell : String → RunResult := fun _ => .timedOut

/-- Record stored for `sampleClaim` after a successful verification under
`okRun` at timestamp "1". -/
def sampleClaimOk : Claim :=
  { sampleClaim with verified := true, actual_result := some "ok",
                     verification_timestamp := some "1" }

/-- Concrete five-check list whose third check raises an exception. -/
def demoChecks : List (String × CheckOutcome) :=
  [("check_memory", .ok true), ("check_claude_md", .ok true),
   ("check_docker", .raised "boom"), ("check_mcp_servers", .ok true),
   ("check_task_master", .ok false)]

/-- Outcome that `verify_claim` produces at a valid index, as a function of
the claim found there. -/
def verifyStep (run : String → RunResult) (ts : String)
    (done : List Claim) (c : Claim) (rest : List Claim) : VerifyOutcome :=
  match run c.proof_command with
  | .completed rc out err =>
    let actual := pyStrip out
    let success : Bool := rc == 0 && decide (0 < actual.length)
    let c' : Claim :=
      { c with verified := success, actual_result := some actual,
               verification_timestamp := some ts }
    ⟨done ++ c' :: rest, some c', success,
     if success then actual else "Command failed: " ++ err⟩
  | .timedOut =>
    ⟨done ++ c :: rest,
     some { c with verified := false, actual_result := some "TIMEOUT" },
     false, "Verification command timed out"⟩
  | .raised m =>
    ⟨done ++ c :: rest,
     some { c with verified := false, actual_result := some ("ERROR: " ++ m) },
     false, "Verification error: " ++ m⟩

/-- Reading the element sitting right after a prefix of known length. -/
lemma getElem?_append_cons (done : List Claim) (c : Claim) (rest : List Claim) :
    (done ++ c :: rest)[done.length]? = some c := by
  induction done with
  | nil => simp
  | cons d ds ih => simpa using ih

/-- Overwriting the element sitting right after a prefix of known length. -/
lemma set_append_cons (done : List Claim) (c c' : Claim) (rest : List Claim) :
    (done ++ c :: rest).set done.length c' = done ++ c' :: rest := by
  induction done with
  | nil => rfl
  | cons d ds ih => simp [ih]

/-- Valid non-negative indexes resolve to themselves under Python indexing. -/
lemma pyIndex_coe_of_lt {n len : Nat} (h : n < len) :
    pyIndex len (n : Int) = some n := by
  simp [pyIndex, h]

/-- Evaluating `verify_claim` at a valid index `done.length` of the file
`done ++ c :: rest` runs the proof command of `c` and behaves as
`verifyStep`. -/
lemma verifyClaim_valid (run : String → RunResult) (ts : String)
    (done : List Claim) (c : Claim) (rest : List Claim) :
    verifyClaim run ts (done ++ c :: rest) (done.length : Int) =
      some (verifyStep run ts done c rest) := by
  have hlen : done.length < (done ++ c :: rest).length := by
    simp [List.length_append]
  have hnotle : ¬ (((done ++ c :: rest).length : Int) ≤ (done.length : Int)) := by
    exact_mod_cast Nat.not_le.mpr hlen
  rw [verifyClaim, if_neg hnotle, pyIndex_coe_of_lt hlen]
  dsimp only
  rw [getElem?_append_cons]
  unfold verifyStep
  cases hr : run c.proof_command with
  | completed rc out err => simp [hr, set_append_cons]
  | timedOut => simp [hr]
  | raised m => simp [hr]

/-- Processing a claim never changes its stored proof command. -/
lemma stepClaim_proof_command (run : String → RunResult) (ts : String)
    (c : Claim) : (stepClaim run ts c).proof_command = c.proof_command := by
  cases hc : c.verified <;> cases hr : run c.proof_command <;>
    simp [stepClaim, hc, hr]

/-- After processing, a claim's stored verified flag says exactly "it was
already verified, or its proof command just succeeded". -/
lemma stepClaim_verified (run : String → RunResult) (ts : String) (c : Claim) :
    (stepClaim run ts c).verified =
      (c.verified || runSuccess run c.proof_command) := by
  cases hc : c.verified <;> cases hr : run c.proof_command <;>
    simp [stepClaim, runSuccess, hc, hr]

/-- File content in the outcome of one valid `verify_claim` call on an
unverified claim: the processed record replaces the old one. -/
lemma verifyStep_file (run : String → RunResult) (ts : String)
    (done : List Claim) (c : Claim) (rest : List Claim)
    (hc : c.verified = false) :
    (verifyStep run ts done c rest).file =
      done ++ stepClaim run ts c :: rest := by
  cases hr : run c.proof_command <;> simp [verifyStep, stepClaim, hc, hr]

/-- Returned boolean of one valid `verify_claim` call: the run succeeded. -/
lemma verifyStep_ok (run : String → RunResult) (ts : String)
    (done : List Claim) (c : Claim) (rest : List Claim) :
    (verifyStep run ts done c rest).ok = runSuccess run c.proof_command := by
  cases hr : run c.proof_command <;> simp [verifyStep, runSuccess, hr]

/-- Characterization of the `verify_all_claims` loop: starting from the file
`done ++ todo` at index `done.length`, it maps `stepClaim` over the still
unprocessed suffix and counts, among the snapshot claims, the verified ones,
the failed ones, and (as executions) the not-yet-verified ones. -/
lemma verifyAllGo_eq (run : String → RunResult) (ts : String) :
    ∀ (todo done : List Claim) (v f e : Nat),
    verifyAllGo run ts todo done.length (done ++ todo) v f e =
      (done ++ todo.map (stepClaim run ts),
       v + todo.countP (fun c => c.verified || runSuccess run c.proof_command),
       f + todo.countP (fun c => !(c.verified || runSuccess run c.proof_command)),
       e + todo.countP (fun c => !c.verified))
  | [], done, v, f, e => by simp [verifyAllGo]
  | c :: rest, done, v, f, e => by
    have hstep := verifyClaim_valid run ts done c rest
    cases hc : c.verified with
    | true =>
      have ih := verifyAllGo_eq run ts rest (done ++ [c]) (v + 1) f e
      rw [verifyAllGo, if_neg (by simp [hc]), if_pos hc,
        show done ++ c :: rest = (done ++ [c]) ++ rest by simp,
        show done.length + 1 = (done ++ [c]).length by simp, ih]
      simp only [Prod.mk.injEq]
      refine ⟨by simp [stepClaim, hc], ?_, ?_, ?_⟩ <;>
        (simp [List.countP_cons, hc]; try omega)
    | false =>
      rw [verifyAllGo, if_pos (by simp [hc]), hstep]
      dsimp only
      rw [verifyStep_ok, verifyStep_file run ts done c rest hc]
      have hfile : done ++ stepClaim run ts c :: rest =
          (done ++ [stepClaim run ts c]) ++ rest := by simp
      have hlen : done.length + 1 = (done ++ [stepClaim run ts c]).length := by
        simp
      by_cases hs : runSuccess run c.proof_command = true
      · have ih := verifyAllGo_eq run ts rest
          (done ++ [stepClaim run ts c]) (v + 1) f (e + 1)
        rw [if_pos hs, hfile, hlen, ih]
        simp only [Prod.mk.injEq]
        refine ⟨by simp, ?_, ?_, ?_⟩ <;>
          (simp [List.countP_cons, hc, hs]; try omega)
      · have ih := verifyAllGo_eq run ts rest
          (done ++ [stepClaim run ts c]) v (f + 1) (e + 1)
        rw [if_neg hs, hfile, hlen, ih]
        have hs' : runSuccess run c.proof_command = false := by
          simpa using hs
        simp only [Prod.mk.injEq]
        refine ⟨by simp, ?_, ?_, ?_⟩ <;>
          (simp [List.countP_cons, hc, hs']; try omega)

/-- A resolved Python index is in range, and the raw index was below the
length. -/
lemma pyIndex_some_lt {len : Nat} {i : Int} {idx : Nat}
    (h : pyIndex len i = some idx) : i < (len : Int) ∧ idx < len := by
  unfold pyIndex at h
  by_cases h0 : 0 ≤ i
  · rw [if_pos h0] at h
    by_cases h1 : i < (len : Int)
    · rw [if_pos h1] at h
      refine ⟨h1, ?_⟩
      cases h
      omega
    · rw [if_neg h1] at h
      cases h
  · rw [if_neg h0] at h
    by_cases h2 : -(len : Int) ≤ i
    · rw [if_pos h2] at h
      cases h
      omega
    · rw [if_neg h2] at h
      cases h

/-- Whenever `verify_claim` resolves a claim at a valid index, it handles an
in-memory record (the session lists receive an entry). -/
lemma verifyClaim_record_some (run : String → RunResult) (ts : String)
    (claims : List Claim) (claim_id : Int) (idx : Nat) (c : Claim)
    (hidx : pyIndex claims.length claim_id = some idx)
    (hc : claims[idx]? = some c) :
    ∃ o : VerifyOutcome,
      verifyClaim run ts claims claim_id = some o ∧ o.record ≠ none := by
  obtain ⟨h1, _⟩ := pyIndex_some_lt hidx
  rw [verifyClaim, if_neg (not_le.mpr h1), hidx]
  dsimp only
  rw [hc]
  dsimp only
  cases run c.proof_command <;> exact ⟨_, rfl, by simp⟩

/-- Evaluating `verify_all_claims` on an existing claims file: the stored
file becomes the `stepClaim` image of the snapshot, the verified/failed
counts partition the snapshot by `verified`-or-fresh-success, and one proof
command is executed per not-yet-verified claim. -/
lemma verify_all_some (run : String → RunResult) (ts : String)
    (cs : List Claim) :
    verify_all_claims run ts (some cs) =
      ⟨some (cs.map (stepClaim run ts)),
       cs.countP (fun c => c.verified || runSuccess run c.proof_command),
       cs.countP (fun c => !(c.verified || runSuccess run c.proof_command)),
       cs.length,
       cs.countP (fun c => !c.verified)⟩ := by
  have h := verifyAllGo_eq run ts cs [] 0 0 0
  simp only [List.nil_append, List.length_nil, Nat.zero_add] at h
  simp [verify_all_claims, h]

/-- Counting a predicate and its complement partitions a list. -/
lemma countP_add_countP_not (p : Claim → Bool) (l : List Claim) :
    l.countP p + l.countP (fun a => !(p a)) = l.length := by
  have := List.length_eq_countP_add_countP p l
  simpa using this.symm

/-- Accumulator form of the check loop: it appends the passed names and
failed entries of the remaining checks. -/
lemma runChecksGo_eq :
    ∀ (checks : List (String × CheckOutcome)) (p f : List String),
    runChecksGo checks p f = (p ++ passedNames checks, f ++ failedEntries checks)
  | [], p, f => by simp [runChecksGo, passedNames, failedEntries]
  | (name, out) :: rest, p, f => by
    cases out with
    | ok b =>
      cases b <;>
        simp [runChecksGo, passedNames, failedEntries, List.filterMap_cons,
          runChecksGo_eq rest _ _]
    | raised e =>
      simp [runChecksGo, passedNames, failedEntries, List.filterMap_cons,
        runChecksGo_eq rest _ _]

/-- Each check contributes exactly one entry, to one of the two lists. -/
lemma passedNames_length_add (checks : List (String × CheckOutcome)) :
    (passedNames checks).length + (failedEntries checks).length =
      checks.length := by
  induction checks with
  | nil => rfl
  | cons nc rest ih =>
    obtain ⟨name, out⟩ := nc
    simp only [passedNames, failedEntries, List.filterMap_cons] at ih ⊢
    cases out with
    | ok b =>
      cases b <;> (simp; omega)
    | raised e =>
      simp
      omega

/-- Looking up a key right after observing it returns the EMA-updated
score. -/
lemma getScore_observe (m : List (String × ℚ)) (key : String) (success : Bool) :
    getScore (observe m key success) key =
      (7 / 10) * getScore m key + (3 / 10) * (if success then 1 else 0) := by
  simp [observe, getScore, List.lookup]

/-- Processing a claim never changes its stored claim text. -/
lemma stepClaim_claim (run : String → RunResult) (ts : String) (c : Claim) :
    (stepClaim run ts c).claim = c.claim := by
  cases hc : c.verified <;> cases hr : run c.proof_command <;>
    simp [stepClaim, hc, hr]

/-- Setting a valid position and reading it back. -/
lemma getElem?_set_self_of_lt (l : List Claim) (i : Nat) (a : Claim)
    (h : i < l.length) : (l.set i a)[i]? = some a := by
  simp [List.getElem?_set_self, h]

/-- C1: for every claim whose proof command runs to completion,
`verify_claim` stores a record whose `verified` flag is true exactly when
the exit code was 0 and the stripped stdout is non-empty, and returns that
flag. -/
theorem verify_claim_verified_iff_exit_zero_and_output
    (run : String → RunResult) (ts : String) (claims : List Claim)
    (claim_id : Int) (idx : Nat) (c : Claim) (rc : Int) (out err : String)
    (hidx : pyIndex claims.length claim_id = some idx)
    (hc : claims[idx]? = some c)
    (hrun : run c.proof_command = .completed rc out err) :
    ∃ o : VerifyOutcome, verifyClaim run ts claims claim_id = some o ∧
      ∃ c' : Claim, o.file[idx]? = some c' ∧
        (c'.verified = true ↔ rc = 0 ∧ 0 < (pyStrip out).length) ∧
        o.ok = c'.verified := by
  obtain ⟨h1, h2⟩ := pyIndex_some_lt hidx
  rw [verifyClaim, if_neg (not_le.mpr h1), hidx]
  dsimp only
  rw [hc]
  dsimp only
  rw [hrun]
  dsimp only
  refine ⟨_, rfl, _, getElem?_set_self_of_lt claims idx _ h2, ?_, rfl⟩
  simp

/-- Witness for C1 at a concrete store and shell. -/
theorem verify_claim_verified_iff_exit_zero_and_output_witness :
    ∃ o : VerifyOutcome, verifyClaim okRun "1" [sampleClaim] 0 = some o ∧
      ∃ c' : Claim, o.file[0]? = some c' ∧
        (c'.verified = true ↔ (0 : Int) = 0 ∧ 0 < (pyStrip "ok").length) ∧
        o.ok = c'.verified :=
  verify_claim_verified_iff_exit_zero_and_output okRun "1" [sampleClaim]
    0 0 sampleClaim 0 "ok" "" (by decide) rfl rfl

/-- C3 (amended): on a proof-command timeout, `verify_claim` sets the
in-memory record's `actual_result` to "TIMEOUT" and `verified` to false
(likewise "ERROR: <message>" for an execution exception) and returns false,
but it does not write the update back to the claims file: the stored list is
returned unchanged. -/
theorem verify_claim_timeout_error_not_persisted
    (run : String → RunResult) (ts : String) (claims : List Claim)
    (claim_id : Int) (idx : Nat) (c : Claim)
    (hidx : pyIndex claims.length claim_id = some idx)
    (hc : claims[idx]? = some c) :
    (run c.proof_command = .timedOut →
      verifyClaim run ts claims claim_id =
        some ⟨claims, some { c with verified := false, actual_result := some "TIMEOUT" }, false, "Verification command timed out"⟩)
    ∧ (∀ m : String, run c.proof_command = .raised m →
      verifyClaim run ts claims claim_id =
        some ⟨claims, some { c with verified := false, actual_result := some ("ERROR: " ++ m) }, false, "Verification error: " ++ m⟩) := by
  obtain ⟨h1, _⟩ := pyIndex_some_lt hidx
  constructor
  · intro hrun
    rw [verifyClaim, if_neg (not_le.mpr h1), hidx]
    dsimp only
    rw [hc]
    dsimp only
    rw [hrun]
  · intro m hrun
    rw [verifyClaim, if_neg (not_le.mpr h1), hidx]
    dsimp only
    rw [hc]
    dsimp only
    rw [hrun]

/-- Witness for the amended C3 at a concrete store and a timing-out shell. -/
theorem verify_claim_timeout_error_not_persisted_witness :
    verifyClaim timeoutShell "1" [sampleClaim] 0 =
      some ⟨[sampleClaim], some { sampleClaim with verified := false, actual_result := some "TIMEOUT" }, false, "Verification command timed out"⟩ :=
  (verify_claim_timeout_error_not_persisted timeoutShell "1" [sampleClaim]
    0 0 sampleClaim (by decide) rfl).1 rfl

/-- C3 counterexample: after a timeout the claims file still holds the
original record, whose `actual_result` is not "TIMEOUT" — the updated record
was not persisted. -/
theorem timeout_record_not_persisted_counterexample :
    ∃ o : VerifyOutcome,
      verifyClaim timeoutShell "1" [sampleClaim] 0 = some o ∧
      o.file = [sampleClaim] ∧ sampleClaim.actual_result ≠ some "TIMEOUT" :=
  ⟨_, rfl, rfl, by decide⟩

/-- C4 (amended): `verify_claim` takes the invalid-claim-ID early return
exactly for IDs at or past the store length; an ID below minus the length
raises an uncaught `IndexError`; any other negative ID wraps Python-style to
position `length + id`, whose proof command is then run (the session gets a
record). -/
theorem verify_claim_invalid_id_only_above_length
    (run : String → RunResult) (ts : String) (claims : List Claim)
    (claim_id : Int) :
    ((claims.length : Int) ≤ claim_id →
      verifyClaim run ts claims claim_id =
        some ⟨claims, none, false, "Invalid claim ID"⟩)
    ∧ (claim_id < -(claims.length : Int) →
      verifyClaim run ts claims claim_id = none)
    ∧ (-(claims.length : Int) ≤ claim_id → claim_id < 0 →
      pyIndex claims.length claim_id =
        some ((claims.length : Int) + claim_id).toNat
      ∧ ∃ o : VerifyOutcome,
          verifyClaim run ts claims claim_id = some o ∧ o.record ≠ none) := by
  refine ⟨?_, ?_, ?_⟩
  · intro h
    rw [verifyClaim, if_pos h]
  · intro h
    have hlen : ¬ ((claims.length : Int) ≤ claim_id) := by omega
    have hpy : pyIndex claims.length claim_id = none := by
      unfold pyIndex
      rw [if_neg (by omega), if_neg (by omega)]
    rw [verifyClaim, if_neg hlen, hpy]
  · intro h1 h2
    have hpy : pyIndex claims.length claim_id =
        some ((claims.length : Int) + claim_id).toNat := by
      unfold pyIndex
      rw [if_neg (by omega), if_pos h1]
    have hidxlt : ((claims.length : Int) + claim_id).toNat < claims.length := by
      omega
    exact ⟨hpy, verifyClaim_record_some run ts claims claim_id _ _ hpy
      (List.getElem?_eq_getElem hidxlt)⟩

/-- Witness for the amended C4: ID 5 on a one-claim store is rejected with
the store unchanged, and ID -2 raises. -/
theorem verify_claim_invalid_id_only_above_length_witness :
    verifyClaim okRun "1" [sampleClaim] 5 =
      some ⟨[sampleClaim], none, false, "Invalid claim ID"⟩
    ∧ verifyClaim okRun "1" [sampleClaim] (-2) = none :=
  ⟨(verify_claim_invalid_id_only_above_length okRun "1" [sampleClaim] 5).1
    (by decide),
   (verify_claim_invalid_id_only_above_length okRun "1" [sampleClaim] (-2)).2.1
    (by decide)⟩

/-- C4 counterexample: ID -1 on a one-claim store does not fail with the
invalid-claim-ID error; it verifies the last claim and rewrites the store. -/
theorem negative_id_runs_command_counterexample :
    verifyClaim okRun "1" [sampleClaim] (-1) =
      some ⟨[sampleClaimOk], some sampleClaimOk, true, "ok"⟩
    ∧ [sampleClaimOk] ≠ [sampleClaim] ∧ "ok" ≠ "Invalid claim ID" := by
  refine ⟨by decide, by decide, by decide⟩

/-- C8 (amended): `log_claim` appends the fresh unverified record and
returns the append position — the number of claims before the append — as
the claim ID; the ID equals the store length, so it is unique among stored
positions and fixed once assigned, but it is 0 (not positive) for the first
claim of an empty store. -/
theorem log_claim_appends_and_returns_position
    (ts : String) (claims : List Claim) (claim cmd expected : String) :
    (log_claim ts claims claim cmd expected).1 =
      claims ++ [⟨ts, claim, cmd, expected, false, none, none⟩]
    ∧ (log_claim ts claims claim cmd expected).2 = claims.length := by
  simp [log_claim]

/-- C8 counterexample: the very first claim logged to an empty store gets
ID 0, which is not a positive integer. -/
theorem first_claim_id_zero_counterexample :
    (log_claim "1" [] "a" "b" "c").2 = 0
    ∧ ¬ 0 < (log_claim "1" [] "a" "b" "c").2 := by
  decide

/-- C10: the counts returned by `verify_all_claims` always satisfy
`verified + failed = total`, with `total` the number of stored claims, and
all three counts are 0 when the claims file does not exist. -/
theorem verify_all_counts_partition (run : String → RunResult) (ts : String) :
    (∀ cs : List Claim,
      (verify_all_claims run ts (some cs)).verified +
          (verify_all_claims run ts (some cs)).failed =
        (verify_all_claims run ts (some cs)).total
      ∧ (verify_all_claims run ts (some cs)).total = cs.length)
    ∧ verify_all_claims run ts none = ⟨none, 0, 0, 0, 0⟩ := by
  refine ⟨fun cs => ?_, rfl⟩
  rw [verify_all_some]
  exact ⟨countP_add_countP_not _ cs, rfl⟩

/-- C2 (amended): a second `verify_all_claims` call on the store left by the
first, with no claims added and the same shell, returns the same
`{verified, failed, total}` counts; but it re-executes one proof command per
claim that stayed unverified, so it issues zero additional executions only
when the first call's failed count was zero. -/
theorem verify_all_twice_same_counts_reruns_failed
    (run : String → RunResult) (ts : String) (cs : List Claim) :
    ((verify_all_claims run ts
          ((verify_all_claims run ts (some cs)).store)).verified =
        (verify_all_claims run ts (some cs)).verified
      ∧ (verify_all_claims run ts
          ((verify_all_claims run ts (some cs)).store)).failed =
        (verify_all_claims run ts (some cs)).failed
      ∧ (verify_all_claims run ts
          ((verify_all_claims run ts (some cs)).store)).total =
        (verify_all_claims run ts (some cs)).total)
    ∧ (verify_all_claims run ts
          ((verify_all_claims run ts (some cs)).store)).execs =
        (verify_all_claims run ts (some cs)).failed := by
  have hpred : ∀ c : Claim,
      ((stepClaim run ts c).verified ||
        runSuccess run (stepClaim run ts c).proof_command) =
      (c.verified || runSuccess run c.proof_command) := by
    intro c
    rw [stepClaim_verified, stepClaim_proof_command]
    cases c.verified <;> cases runSuccess run c.proof_command <;> rfl
  rw [verify_all_some run ts cs]
  dsimp only
  rw [verify_all_some run ts (cs.map (stepClaim run ts))]
  dsimp only
  refine ⟨⟨?_, ?_, ?_⟩, ?_⟩
  · rw [List.countP_map]
    exact List.countP_congr fun c _ => by
      simp only [Function.comp]
      rw [hpred c]
  · rw [List.countP_map]
    exact List.countP_congr fun c _ => by
      simp only [Function.comp]
      rw [hpred c]
  · simp
  · rw [List.countP_map]
    exact List.countP_congr fun c _ => by
      simp only [Function.comp]
      rw [stepClaim_verified]

/-- C2 counterexample: with one claim whose proof command fails, the second
`verify_all_claims` call still executes a proof command (one, not zero). -/
theorem second_verify_all_executes_counterexample :
    (verify_all_claims failRun "1"
        ((verify_all_claims failRun "1" (some [sampleClaim])).store)).execs ≠ 0
    ∧ (verify_all_claims failRun "1"
        ((verify_all_claims failRun "1" (some [sampleClaim])).store)).execs = 1 := by
  decide

/-- C5: `run_all_checks` hands every check in the list exactly one entry in
the passed or failed lists (a check that raises is recorded as
"<name>: <error>" in the failed list rather than aborting the run), and the
returned success flag is true exactly when the failed list is empty. -/
theorem run_all_checks_exceptions_recorded
    (checks : List (String × CheckOutcome)) :
    ((run_all_checks checks).1.length + (run_all_checks checks).2.1.length =
      checks.length)
    ∧ ((run_all_checks checks).2.2 = true ↔ (run_all_checks checks).2.1 = [])
    ∧ ∀ (i : Nat) (name e : String),
        checks[i]? = some (name, .raised e) →
        (name ++ ": " ++ e) ∈ (run_all_checks checks).2.1 := by
  have hrun : run_all_checks checks =
      (passedNames checks, failedEntries checks,
       (failedEntries checks).length == 0) := by
    simp [run_all_checks, runChecksGo_eq checks [] []]
  rw [hrun]
  refine ⟨passedNames_length_add checks, ?_, ?_⟩
  · simp [List.length_eq_zero]
  · intro i name e hi
    exact List.mem_filterMap.mpr ⟨(name, .raised e), List.getElem?_mem hi, rfl⟩

/-- Witness for C5: five checks whose third raises — its entry lands in the
failed list while the later checks still contribute. -/
theorem run_all_checks_exceptions_recorded_witness :
    "check_docker: boom" ∈ (run_all_checks demoChecks).2.1 :=
  (run_all_checks_exceptions_recorded demoChecks).2.2 2 "check_docker" "boom"
    rfl

/-- C6: an unseen pattern key scores 0.5; observing success moves the score
to `0.7 * old + 0.3`, strictly up but still below 1 whenever the old score
was below 1; observing failure moves it to `0.7 * old`, strictly down but
still above 0 whenever the old score was above 0. -/
theorem pattern_score_ema_bounds (m : List (String × ℚ)) (key : String) :
    (m.lookup key = none → getScore m key = 1 / 2)
    ∧ (getScore m key < 1 →
        getScore m key < getScore (observe m key true) key
        ∧ getScore (observe m key true) key < 1)
    ∧ (0 < getScore m key →
        getScore (observe m key false) key < getScore m key
        ∧ 0 < getScore (observe m key false) key) := by
  refine ⟨fun h => by simp [getScore, h], fun h => ?_, fun h => ?_⟩
  · rw [getScore_observe]
    norm_num
    constructor <;> linarith
  · rw [getScore_observe]
    norm_num
    constructor <;> linarith

/-- Witness for C6 starting from the empty pattern memory. -/
theorem pattern_score_ema_bounds_witness :
    getScore ([] : List (String × ℚ)) "k" = 1 / 2
    ∧ (getScore ([] : List (String × ℚ)) "k" <
          getScore (observe [] "k" true) "k"
        ∧ getScore (observe [] "k" true) "k" < 1)
    ∧ (getScore (observe [] "k" false) "k" <
          getScore ([] : List (String × ℚ)) "k"
        ∧ 0 < getScore (observe [] "k" false) "k") :=
  ⟨(pattern_score_ema_bounds [] "k").1 rfl,
   (pattern_score_ema_bounds [] "k").2.1 (by norm_num [getScore]),
   (pattern_score_ema_bounds [] "k").2.2 (by norm_num [getScore])⟩

/-- C7: without activation the decision confidence is 0.5 plus 0.4 for an
explicit user instruction, minus 0.3 for creating while the context says to
use existing, minus 0.2 for a requested check/read the action has not done;
with activation (triggered exactly by the phrase match) the unboosted value
is multiplied by 1.5 and capped at 1.0. -/
theorem decision_confidence_formula (action context msg : String) :
    calculate_decision_confidence false action context =
      1 / 2
        + (if strContains "user explicitly asked" context then (4 : ℚ) / 10
           else 0)
        - (if strContains "create" action && strContains "use existing" context
           then (3 : ℚ) / 10 else 0)
        - (if (strContains "check" context || strContains "read" context) &&
              !(strContains "already read" action)
           then (2 : ℚ) / 10 else 0)
    ∧ calculate_decision_confidence true action context =
        min (calculate_decision_confidence false action context * (3 / 2)) 1
    ∧ calculate_decision_confidence (check_trinity_activation msg)
          action context =
        (if strContains "ich bins wieder" (pyLower msg) then
          min (calculate_decision_confidence false action context * (3 / 2)) 1
        else calculate_decision_confidence false action context) := by
  refine ⟨?_, rfl, ?_⟩
  · cases h1 : strContains "user explicitly asked" context <;>
    cases h2 : strContains "create" action <;>
    cases h3 : strContains "use existing" context <;>
    cases h4 : strContains "check" context <;>
    cases h5 : strContains "read" context <;>
    cases h6 : strContains "already read" action <;>
      (simp [calculate_decision_confidence, h1, h2, h3, h4, h5, h6]; try norm_num)
  · rw [check_trinity_activation]
    cases h : strContains "ich bins wieder" (pyLower msg)
    · rw [if_neg (by simp)]
    · rw [if_pos rfl]
      rfl

/-- Characterization of the `demand_proof_for_claim` loop over any table:
with no matching key it returns the store unchanged and `None`; on the first
matching entry it appends the fresh claim (as processed by its immediate
verification) and returns the new claim ID exactly when the command
succeeded. -/
lemma demand_proof_go_eq (run : String → RunResult) (ts : String)
    (claims : List Claim) (text : String) :
    ∀ table : List (String × String),
    (table.find? (fun kc => strContains (pyLower kc.1) (pyLower text)) = none →
      demand_proof_go run ts claims text table = (claims, none))
    ∧ (∀ k cmd : String,
        table.find? (fun kc => strContains (pyLower kc.1) (pyLower text)) =
          some (k, cmd) →
        demand_proof_go run ts claims text table =
          (claims ++
            [stepClaim run ts ⟨ts, text, cmd, "Success expected", false, none, none⟩],
           if runSuccess run cmd then some claims.length else none))
  | [] => ⟨fun _ => rfl, fun k cmd h => by simp at h⟩
  | (ct, cm) :: rest => by
    by_cases hm : strContains (pyLower ct) (pyLower text) = true
    · refine ⟨fun hn => ?_, fun k cmd hf => ?_⟩
      · simp only [List.find?_cons, hm] at hn
        cases hn
      · simp only [List.find?_cons, hm] at hf
        injection hf with hf
        injection hf with hk hcmd
        subst hk
        subst hcmd
        rw [demand_proof_go, if_pos hm]
        simp only [log_claim]
        have hl : (claims ++
            [(⟨ts, text, cm, "Success expected", false, none, none⟩ : Claim)]).length - 1 =
            claims.length := by simp
        rw [hl]
        rw [verifyClaim_valid run ts claims
          ⟨ts, text, cm, "Success expected", false, none, none⟩ []]
        dsimp only
        rw [verifyStep_ok, verifyStep_file run ts claims
          ⟨ts, text, cm, "Success expected", false, none, none⟩ [] rfl]
    · have hmf : strContains (pyLower ct) (pyLower text) = false := by
        simpa using hm
      refine ⟨fun hn => ?_, fun k cmd hf => ?_⟩
      · simp only [List.find?_cons, hmf] at hn
        rw [demand_proof_go, if_neg hm]
        exact (demand_proof_go_eq run ts claims text rest).1 hn
      · simp only [List.find?_cons, hmf] at hf
        rw [demand_proof_go, if_neg hm]
        exact (demand_proof_go_eq run ts claims text rest).2 k cmd hf

/-- C9: when some table key is a case-insensitive substring of the claim
text, `demand_proof_for_claim` logs exactly one new claim carrying the
matched canonical proof command and verifies it at once (the stored record's
`verified` flag reflects the command's success, and the claim ID comes back
exactly on success); with no matching key, nothing is logged and `None`
signals the caller. -/
theorem demand_proof_matches_or_signals (run : String → RunResult)
    (ts : String) (claims : List Claim) (text : String) :
    (matchProofCommand text = none →
      demand_proof_for_claim run ts claims text = (claims, none))
    ∧ (∀ k cmd : String, matchProofCommand text = some (k, cmd) →
        ∃ c : Claim,
          (demand_proof_for_claim run ts claims text).1 = claims ++ [c]
          ∧ c.claim = text ∧ c.proof_command = cmd
          ∧ c.verified = runSuccess run cmd
          ∧ (demand_proof_for_claim run ts claims text).2 =
              (if runSuccess run cmd then some claims.length else none)) := by
  have h := demand_proof_go_eq run ts claims text proof_commands
  refine ⟨fun hn => h.1 hn, fun k cmd hf => ?_⟩
  have h2 := h.2 k cmd hf
  refine ⟨stepClaim run ts ⟨ts, text, cmd, "Success expected", false, none, none⟩,
    ?_, ?_, ?_, ?_, ?_⟩
  · rw [demand_proof_for_claim, h2]
  · rw [stepClaim_claim]
  · rw [stepClaim_proof_command]
  · rw [stepClaim_verified]
    rfl
  · rw [demand_proof_for_claim, h2]

/-- Witness for C9: an unmatched text logs nothing; "server running" inside
the text matches the first table entry. -/
theorem demand_proof_matches_or_signals_witness :
    demand_proof_for_claim okRun "1" [] "totally unrelated words" = ([], none)
    ∧ ∃ c : Claim,
        (demand_proof_for_claim okRun "1" []
            "the Server Running since morning").1 = [] ++ [c]
        ∧ c.claim = "the Server Running since morning"
        ∧ c.proof_command =
            "ps aux | grep -E '(memory|enhanced)' | grep -v grep"
        ∧ c.verified =
            runSuccess okRun "ps aux | grep -E '(memory|enhanced)' | grep -v grep"
        ∧ (demand_proof_for_claim okRun "1" []
              "the Server Running since morning").2 =
            (if runSuccess okRun
                  "ps aux | grep -E '(memory|enhanced)' | grep -v grep"
             then some ([] : List Claim).length else none) :=
  ⟨(demand_proof_matches_or_signals okRun "1" [] "totally unrelated words").1
    (by decide),
   (demand_proof_matches_or_signals okRun "1" []
      "the Server Running since morning").2 "server running"
      "ps aux | grep -E '(memory|enhanced)' | grep -v grep" (by decide)⟩
